import Mathlib

/-!
Shallow embedding of the educational platform backend
(`educational-platform-backend.py`): a FastAPI service over three MongoDB
collections (`users`, `courses`, `progress`).

Modelling decisions:
* MongoDB ObjectIds are modelled as natural numbers.  A string path
  parameter is parsed via `PyObjectId.validate`, which checks the bson
  validity condition for strings (24 hexadecimal characters) and parses
  the hex digits; an invalid string yields a `ValueError`, exactly as in
  the Python class.
* Each collection is a Lean list of documents in insertion order;
  `find_one` returns the first document matching the filter
  (`List.find?`), `insert_one` appends a document with a fresh id taken
  from a counter, and `update_one` rewrites the first matching document.
* Each HTTP handler becomes a state-passing function
  `args → DB → Except Failure α × DB`.  A `raise HTTPException` becomes
  `Failure.httpException status detail`; the bare `raise ValueError`
  inside `PyObjectId.validate` becomes `Failure.valueError`, a distinct
  constructor, because it is not an HTTP error response produced by the
  handler.  All raises in the source happen before any write, so the
  returned state on the error paths is the input state.
-/

/-- A document of the `users` collection (the `User` pydantic model). -/
structure UserDoc where
  id : Nat
  username : String
  is_instructor : Bool
  deriving Repr, DecidableEq

/-- The embedded `QuizQuestion` pydantic model. -/
structure QuizQuestion where
  question : String
  options : List String
  correct_option_index : Int
  deriving Repr, DecidableEq

/-- A document of the `courses` collection (the `Course` pydantic model). -/
structure CourseDoc where
  id : Nat
  title : String
  description : Option String
  instructor_id : Nat
  quizzes : List QuizQuestion
  deriving Repr, DecidableEq

/-- A document of the `progress` collection (the `Progress` pydantic model). -/
structure ProgressDoc where
  id : Nat
  student_id : Nat
  course_id : Nat
  completed_quizzes : List Int
  assignments_completed : Bool
  deriving Repr, DecidableEq

/-- The whole document store: the three collections plus the counter that
hands out fresh ObjectIds on `insert_one`. -/
structure DB where
  users : List UserDoc
  courses : List CourseDoc
  progress : List ProgressDoc
  nextId : Nat
  deriving Repr, DecidableEq

/-- The empty store. -/
def initDB : DB := ⟨[], [], [], 0⟩

/-- How a handler fails: a `fastapi.HTTPException` carrying a status code
and a detail message, or a bare Python `ValueError` escaping the handler. -/
inductive Failure where
  | httpException (status_code : Nat) (detail : String)
  | valueError (msg : String)
  deriving Repr, DecidableEq

/-- Whether a failure is an HTTP error response (an `HTTPException`). -/
def Failure.isHttp : Failure → Bool
  | .httpException _ _ => true
  | .valueError _ => false

/-- Request body of `POST /users/`. -/
structure UserCreateRequest where
  username : String
  is_instructor : Bool
  deriving Repr, DecidableEq

/-- Request body of `POST /courses/`. -/
structure CourseCreateRequest where
  title : String
  description : Option String
  instructor_username : String
  deriving Repr, DecidableEq

/-- Request body of `POST /courses/\x7bcourse_id\x7d/enroll/`. -/
structure EnrollRequest where
  student_username : String
  deriving Repr, DecidableEq

/-- Request body of the complete-quiz endpoint. -/
structure CompleteQuizRequest where
  quiz_index : Int
  deriving Repr, DecidableEq

/-- A character bson accepts inside an ObjectId string. -/
def isHexChar (c : Char) : Bool :=
  ('0' ≤ c && c ≤ '9') || ('a' ≤ c && c ≤ 'f') || ('A' ≤ c && c ≤ 'F')

/-- `bson.ObjectId.is_valid` on a string: 24 hexadecimal characters. -/
def ObjectId_is_valid (s : String) : Bool :=
  s.length == 24 && s.toList.all isHexChar

/-- Numeric value of one hexadecimal character. -/
def hexVal (c : Char) : Nat :=
  if '0' ≤ c && c ≤ '9' then c.toNat - '0'.toNat
  else if 'a' ≤ c && c ≤ 'f' then c.toNat - 'a'.toNat + 10
  else c.toNat - 'A'.toNat + 10

/-- `ObjectId(s)`: the numeric value of the 24 hex digits. -/
def parseOid (s : String) : Nat :=
  s.toList.foldl (fun a c => a * 16 + hexVal c) 0

/-- `PyObjectId.validate`: raises `ValueError("Invalid ObjectId")` when the
string is not a valid ObjectId, otherwise returns the parsed ObjectId. -/
def PyObjectId.validate (v : String) : Except Failure Nat :=
  if ObjectId_is_valid v then .ok (parseOid v)
  else .error (.valueError "Invalid ObjectId")

/-- `collection.find_one(filter)`: first document matching the filter. -/
def find_one {α : Type} (l : List α) (p : α → Bool) : Option α :=
  l.find? p

/-- `collection.update_one(filter, change)`: rewrite the first document
matching the filter, leave everything else in place. -/
def updateFirst {α : Type} (p : α → Bool) (f : α → α) : List α → List α
  | [] => []
  | x :: xs => if p x then f x :: xs else x :: updateFirst p f xs

/-- Handler of `POST /users/` (`create_user`). -/
def create_user (user : UserCreateRequest) (s : DB) :
    Except Failure UserDoc × DB :=
  match find_one s.users (fun u => u.username == user.username) with
  | some _ => (.error (.httpException 400 "Username already exists"), s)
  | none =>
    let user_doc : UserDoc := ⟨s.nextId, user.username, user.is_instructor⟩
    (.ok user_doc,
      { s with users := s.users ++ [user_doc], nextId := s.nextId + 1 })

/-- Handler of `POST /courses/` (`create_course`). -/
def create_course (course : CourseCreateRequest) (s : DB) :
    Except Failure CourseDoc × DB :=
  match find_one s.users
      (fun u => u.username == course.instructor_username &&
                u.is_instructor == true) with
  | none => (.error (.httpException 403 "Only instructors can create courses"), s)
  | some instructor =>
    let course_doc : CourseDoc :=
      ⟨s.nextId, course.title, course.description, instructor.id, []⟩
    (.ok course_doc,
      { s with courses := s.courses ++ [course_doc], nextId := s.nextId + 1 })

/-- Handler of `POST /courses/\x7bcourse_id\x7d/quizzes/` (`add_quiz`).
The final `find_one` re-reads the updated course; the source unpacks its
result into `Course(**updated)`, which cannot fail because the update just
matched the same filter — the `valueError` arm models the `TypeError` that
unpacking `None` would raise and is proved unreachable below. -/
def add_quiz (course_id : String) (quiz : QuizQuestion) (s : DB) :
    Except Failure CourseDoc × DB :=
  match PyObjectId.validate course_id with
  | .error e => (.error e, s)
  | .ok course_oid =>
    match find_one s.courses (fun c => c.id == course_oid) with
    | none => (.error (.httpException 404 "Course not found"), s)
    | some _ =>
      let courses' :=
        updateFirst (fun c => c.id == course_oid)
          (fun c => { c with quizzes := c.quizzes ++ [quiz] }) s.courses
      let s' : DB := { s with courses := courses' }
      match find_one s'.courses (fun c => c.id == course_oid) with
      | none => (.error (.valueError "course vanished"), s')
      | some updated => (.ok updated, s')

/-- Handler of `GET /courses/` (`list_courses`). -/
def list_courses (s : DB) : Except Failure (List CourseDoc) × DB :=
  (.ok s.courses, s)

/-- Handler of `POST /courses/\x7bcourse_id\x7d/enroll/` (`enroll_student`).
The student lookup precedes ObjectId validation, as in the source. -/
def enroll_student (course_id : String) (enroll_req : EnrollRequest) (s : DB) :
    Except Failure ProgressDoc × DB :=
  match find_one s.users
      (fun u => u.username == enroll_req.student_username &&
                u.is_instructor == false) with
  | none => (.error (.httpException 404 "Student not found"), s)
  | some student =>
    match PyObjectId.validate course_id with
    | .error e => (.error e, s)
    | .ok course_oid =>
      match find_one s.progress
          (fun p => p.student_id == student.id && p.course_id == course_oid) with
      | some progress => (.ok progress, s)
      | none =>
        let prog_doc : ProgressDoc := ⟨s.nextId, student.id, course_oid, [], false⟩
        (.ok prog_doc,
          { s with progress := s.progress ++ [prog_doc], nextId := s.nextId + 1 })

/-- Handler of `GET /progress/\x7bcourse_id\x7d/\x7bstudent_username\x7d/`
(`get_progress`). -/
def get_progress (course_id : String) (student_username : String) (s : DB) :
    Except Failure ProgressDoc × DB :=
  match find_one s.users
      (fun u => u.username == student_username && u.is_instructor == false) with
  | none => (.error (.httpException 404 "Student not found"), s)
  | some student =>
    match PyObjectId.validate course_id with
    | .error e => (.error e, s)
    | .ok course_oid =>
      match find_one s.progress
          (fun p => p.student_id == student.id && p.course_id == course_oid) with
      | none => (.error (.httpException 404 "Progress not found"), s)
      | some prog => (.ok prog, s)

/-- Handler of the complete-quiz endpoint (`complete_quiz`).  The source
appends the index to the local list `quizzes_done` and `$set`s the field to
that list, so the update function writes the fixed list
`prog.completed_quizzes ++ [quiz_index]`. -/
def complete_quiz (course_id : String) (student_username : String)
    (complete_quiz_req : CompleteQuizRequest) (s : DB) :
    Except Failure String × DB :=
  match find_one s.users
      (fun u => u.username == student_username && u.is_instructor == false) with
  | none => (.error (.httpException 404 "Student not found"), s)
  | some student =>
    match PyObjectId.validate course_id with
    | .error e => (.error e, s)
    | .ok course_oid =>
      match find_one s.progress
          (fun p => p.student_id == student.id && p.course_id == course_oid) with
      | none => (.error (.httpException 404 "Progress not found"), s)
      | some prog =>
        if prog.completed_quizzes.contains complete_quiz_req.quiz_index then
          (.ok "Quiz marked complete", s)
        else
          let quizzes_done := prog.completed_quizzes ++ [complete_quiz_req.quiz_index]
          let progress' :=
            updateFirst (fun p => p.id == prog.id)
              (fun p => { p with completed_quizzes := quizzes_done })
              s.progress
          (.ok "Quiz marked complete", { s with progress := progress' })

/-- Handler of the complete-assignment endpoint (`complete_assignment`). -/
def complete_assignment (course_id : String) (student_username : String)
    (s : DB) : Except Failure String × DB :=
  match find_one s.users
      (fun u => u.username == student_username && u.is_instructor == false) with
  | none => (.error (.httpException 404 "Student not found"), s)
  | some student =>
    match PyObjectId.validate course_id with
    | .error e => (.error e, s)
    | .ok course_oid =>
      match find_one s.progress
          (fun p => p.student_id == student.id && p.course_id == course_oid) with
      | none => (.error (.httpException 404 "Progress not found"), s)
      | some prog =>
        let progress' :=
          updateFirst (fun p => p.id == prog.id)
            (fun p => { p with assignments_completed := true })
            s.progress
        (.ok "Assignment marked complete", { s with progress := progress' })

/-- One API request, for the reachability relation. -/
inductive Op where
  | opCreateUser (req : UserCreateRequest)
  | opCreateCourse (req : CourseCreateRequest)
  | opAddQuiz (course_id : String) (quiz : QuizQuestion)
  | opListCourses
  | opEnroll (course_id : String) (req : EnrollRequest)
  | opGetProgress (course_id : String) (student_username : String)
  | opCompleteQuiz (course_id : String) (student_username : String)
      (req : CompleteQuizRequest)
  | opCompleteAssignment (course_id : String) (student_username : String)

/-- The state after serving one request (failed requests leave the store
unchanged: every raise in the source precedes every write). -/
def applyOp (o : Op) (s : DB) : DB :=
  match o with
  | .opCreateUser req => (create_user req s).2
  | .opCreateCourse req => (create_course req s).2
  | .opAddQuiz cid q => (add_quiz cid q s).2
  | .opListCourses => (list_courses s).2
  | .opEnroll cid req => (enroll_student cid req s).2
  | .opGetProgress cid uname => (get_progress cid uname s).2
  | .opCompleteQuiz cid uname req => (complete_quiz cid uname req s).2
  | .opCompleteAssignment cid uname => (complete_assignment cid uname s).2

/-- States reachable from the empty store by serving requests. -/
inductive Reachable : DB → Prop where
  | init : Reachable initDB
  | step (o : Op) {s : DB} : Reachable s → Reachable (applyOp o s)

/-- Spec invariant: username values are unique across Users. -/
def usernamesUnique (s : DB) : Prop :=
  (s.users.map UserDoc.username).Nodup

/-- Spec invariant: at most one Progress record per (student, course) pair. -/
def progressPairsUnique (s : DB) : Prop :=
  (s.progress.map (fun p => (p.student_id, p.course_id))).Nodup

/-- Spec invariant: every Course's owning instructor id refers to an
account with `is_instructor = true`. -/
def coursesOwnedByInstructors (s : DB) : Prop :=
  ∀ c ∈ s.courses, ∃ u ∈ s.users, u.id = c.instructor_id ∧ u.is_instructor = true

/-- Spec invariant: every Progress record's student id refers to an
account with `is_instructor = false`. -/
def progressStudentsAreStudents (s : DB) : Prop :=
  ∀ p ∈ s.progress, ∃ u ∈ s.users, u.id = p.student_id ∧ u.is_instructor = false

/-- The conjunction of the four data-model invariants from the spec. -/
def DBInv (s : DB) : Prop :=
  usernamesUnique s ∧ progressPairsUnique s ∧
    coursesOwnedByInstructors s ∧ progressStudentsAreStudents s

/-! ### List lemmas about `find?` and `updateFirst` -/

theorem find?_split {α : Type} {l : List α} {p : α → Bool} {x : α}
    (h : l.find? p = some x) :
    ∃ l1 l2, l = l1 ++ x :: l2 ∧ ∀ y ∈ l1, p y = false := by
  induction l with
  | nil => simp at h
  | cons a l ih =>
    by_cases hpa : p a
    · rw [List.find?_cons_of_pos l hpa] at h
      obtain rfl : a = x := by injection h
      exact ⟨[], l, rfl, by simp⟩
    · rw [List.find?_cons_of_neg l hpa] at h
      obtain ⟨l1, l2, rfl, hl1⟩ := ih h
      refine ⟨a :: l1, l2, rfl, ?_⟩
      intro y hy
      rcases List.mem_cons.mp hy with rfl | hy
      · simpa using hpa
      · exact hl1 y hy

theorem updateFirst_append {α : Type} (p : α → Bool) (f : α → α)
    (l1 l2 : List α) (x : α)
    (h1 : ∀ y ∈ l1, p y = false) (hx : p x = true) :
    updateFirst p f (l1 ++ x :: l2) = l1 ++ f x :: l2 := by
  induction l1 with
  | nil => simp [updateFirst, hx]
  | cons a t ih =>
    have ha : p a = false := h1 a (by simp)
    simp only [List.cons_append, updateFirst, ha, Bool.false_eq_true, if_false,
      List.cons.injEq, true_and]
    exact ih (fun y hy => h1 y (by simp [hy]))

theorem find?_append_cons {α : Type} (p : α → Bool) (l1 l2 : List α) (x : α)
    (h1 : ∀ y ∈ l1, p y = false) (hx : p x = true) :
    (l1 ++ x :: l2).find? p = some x := by
  induction l1 with
  | nil => simpa using List.find?_cons_of_pos l2 hx
  | cons a t ih =>
    have ha : p a = false := h1 a (by simp)
    rw [List.cons_append, List.find?_cons_of_neg _ (by simp [ha])]
    exact ih (fun y hy => h1 y (by simp [hy]))

theorem mem_updateFirst {α : Type} {p : α → Bool} {f : α → α} {l : List α} {x : α}
    (h : x ∈ updateFirst p f l) : x ∈ l ∨ ∃ y ∈ l, x = f y := by
  induction l with
  | nil => simp [updateFirst] at h
  | cons a t ih =>
    by_cases hpa : p a
    · simp only [updateFirst, hpa, if_true, List.mem_cons] at h
      rcases h with rfl | h
      · exact Or.inr ⟨a, by simp, rfl⟩
      · exact Or.inl (by simp [h])
    · simp only [updateFirst, hpa, Bool.false_eq_true, if_false, List.mem_cons] at h
      rcases h with rfl | h
      · exact Or.inl (by simp)
      · rcases ih h with h | ⟨y, hy, rfl⟩
        · exact Or.inl (by simp [h])
        · exact Or.inr ⟨y, by simp [hy], rfl⟩

theorem map_updateFirst {α β : Type} (g : α → β) (p : α → Bool) (f : α → α)
    (l : List α) (hg : ∀ x, g (f x) = g x) :
    (updateFirst p f l).map g = l.map g := by
  induction l with
  | nil => rfl
  | cons a t ih => by_cases hpa : p a <;> simp [updateFirst, hpa, hg, ih]

theorem key_beq_false_of_nodup {α : Type} (key : α → Nat) (l1 l2 : List α) (x : α)
    (hnd : ((l1 ++ x :: l2).map key).Nodup) :
    ∀ y ∈ l1, (key y == key x) = false := by
  intro y hy
  rw [List.map_append] at hnd
  obtain ⟨h1, h2, hdis⟩ := List.nodup_append.mp hnd
  have hne : key y ≠ key x := by
    intro he
    exact hdis (List.mem_map_of_mem key hy) (by simp [he])
  simpa using hne

theorem find?_updateFirst_same {α : Type} {p : α → Bool} {f : α → α}
    {l : List α} {c : α}
    (h : l.find? p = some c) (hf : p (f c) = true) :
    (updateFirst p f l).find? p = some (f c) := by
  obtain ⟨l1, l2, hsplit, h1⟩ := find?_split h
  rw [hsplit, updateFirst_append p f l1 l2 c h1 (List.find?_some h)]
  exact find?_append_cons p l1 l2 (f c) h1 hf

/-! ### Invariant preservation, one lemma per handler -/

theorem dbinv_init : DBInv initDB := by
  refine ⟨?_, ?_, ?_, ?_⟩ <;>
    simp [usernamesUnique, progressPairsUnique, coursesOwnedByInstructors,
      progressStudentsAreStudents, initDB]

theorem dbinv_create_user (req : UserCreateRequest) (s : DB) (h : DBInv s) :
    DBInv ((create_user req s).2) := by
  obtain ⟨h1, h2, h3, h4⟩ := h
  unfold create_user
  cases hf : find_one s.users (fun u => u.username == req.username) with
  | some u => exact ⟨h1, h2, h3, h4⟩
  | none =>
    have hfresh : ∀ u ∈ s.users, u.username ≠ req.username := by
      intro u hu he
      have := List.find?_eq_none.mp hf u hu
      simp [he] at this
    refine ⟨?_, h2, ?_, ?_⟩
    · unfold usernamesUnique at h1 ⊢
      simp only [List.map_append, List.map_cons, List.map_nil]
      rw [List.nodup_append]
      refine ⟨h1, List.nodup_singleton _, ?_⟩
      intro a ha hb
      simp only [List.mem_singleton] at hb
      obtain ⟨u, hu, rfl⟩ := List.mem_map.mp ha
      exact hfresh u hu hb
    · intro c hc
      obtain ⟨u, hu, hue⟩ := h3 c hc
      exact ⟨u, List.mem_append_left _ hu, hue⟩
    · intro p hp
      obtain ⟨u, hu, hue⟩ := h4 p hp
      exact ⟨u, List.mem_append_left _ hu, hue⟩

theorem dbinv_create_course (req : CourseCreateRequest) (s : DB) (h : DBInv s) :
    DBInv ((create_course req s).2) := by
  obtain ⟨h1, h2, h3, h4⟩ := h
  unfold create_course
  cases hf : find_one s.users
      (fun u => u.username == req.instructor_username && u.is_instructor == true) with
  | none => exact ⟨h1, h2, h3, h4⟩
  | some instructor =>
    have hmem : instructor ∈ s.users := List.mem_of_find?_eq_some hf
    have hp := List.find?_some hf
    simp only [Bool.and_eq_true, beq_iff_eq] at hp
    refine ⟨h1, h2, ?_, h4⟩
    intro c hc
    rcases List.mem_append.mp hc with hc | hc
    · exact h3 c hc
    · simp only [List.mem_singleton] at hc
      subst hc
      exact ⟨instructor, hmem, rfl, hp.2⟩

theorem dbinv_add_quiz (cid : String) (q : QuizQuestion) (s : DB) (h : DBInv s) :
    DBInv ((add_quiz cid q s).2) := by
  obtain ⟨h1, h2, h3, h4⟩ := h
  unfold add_quiz
  split
  next e heq => exact ⟨h1, h2, h3, h4⟩
  next oid heq =>
    split
    next heq2 => exact ⟨h1, h2, h3, h4⟩
    next c0 heq2 =>
      have hgoal : DBInv { s with courses :=
          (updateFirst (fun c => c.id == oid)
            (fun c => { c with quizzes := c.quizzes ++ [q] }) s.courses) } := by
        refine ⟨h1, h2, ?_, h4⟩
        intro c hc
        rcases mem_updateFirst hc with hc | ⟨y, hy, rfl⟩
        · exact h3 c hc
        · obtain ⟨u, hu, hue⟩ := h3 y hy
          exact ⟨u, hu, hue⟩
      dsimp only
      split
      next heq3 => exact hgoal
      next u heq3 => exact hgoal

theorem dbinv_enroll (cid : String) (req : EnrollRequest) (s : DB) (h : DBInv s) :
    DBInv ((enroll_student cid req s).2) := by
  obtain ⟨h1, h2, h3, h4⟩ := h
  unfold enroll_student
  split
  next heq => exact ⟨h1, h2, h3, h4⟩
  next student hstu =>
    split
    next e heq => exact ⟨h1, h2, h3, h4⟩
    next oid hv =>
      split
      next progress hpair => exact ⟨h1, h2, h3, h4⟩
      next hpair =>
        have hmem : student ∈ s.users := List.mem_of_find?_eq_some hstu
        have hp := List.find?_some hstu
        simp only [Bool.and_eq_true, beq_iff_eq] at hp
        refine ⟨h1, ?_, h3, ?_⟩
        · unfold progressPairsUnique at h2 ⊢
          simp only [List.map_append, List.map_cons, List.map_nil]
          rw [List.nodup_append]
          refine ⟨h2, List.nodup_singleton _, ?_⟩
          intro a ha hb
          simp only [List.mem_singleton] at hb
          obtain ⟨p, hpmem, rfl⟩ := List.mem_map.mp ha
          have hnp := List.find?_eq_none.mp hpair p hpmem
          simp only [Bool.and_eq_true, beq_iff_eq, not_and] at hnp
          simp only [Prod.mk.injEq] at hb
          exact hnp hb.1 hb.2
        · intro p hpm
          rcases List.mem_append.mp hpm with hpm | hpm
          · obtain ⟨u, hu, hue⟩ := h4 p hpm
            exact ⟨u, hu, hue⟩
          · simp only [List.mem_singleton] at hpm
            subst hpm
            exact ⟨student, hmem, rfl, hp.2⟩

theorem dbinv_get_progress (cid uname : String) (s : DB) (h : DBInv s) :
    DBInv ((get_progress cid uname s).2) := by
  unfold get_progress
  split
  next heq => exact h
  next student hstu =>
    split
    next e heq => exact h
    next oid hv =>
      split
      next hpair => exact h
      next prog hpair => exact h

theorem dbinv_complete_quiz (cid uname : String) (req : CompleteQuizRequest)
    (s : DB) (h : DBInv s) : DBInv ((complete_quiz cid uname req s).2) := by
  obtain ⟨h1, h2, h3, h4⟩ := h
  unfold complete_quiz
  split
  next heq => exact ⟨h1, h2, h3, h4⟩
  next student hstu =>
    split
    next e heq => exact ⟨h1, h2, h3, h4⟩
    next oid hv =>
      split
      next hpair => exact ⟨h1, h2, h3, h4⟩
      next prog hpair =>
        split
        next hc => exact ⟨h1, h2, h3, h4⟩
        next hc =>
          refine ⟨h1, ?_, h3, ?_⟩
          · unfold progressPairsUnique at h2 ⊢
            rw [map_updateFirst]
            · exact h2
            · intro x; rfl
          · intro p hpm
            rcases mem_updateFirst hpm with hpm | ⟨y, hy, rfl⟩
            · exact h4 p hpm
            · obtain ⟨u, hu, hue⟩ := h4 y hy
              exact ⟨u, hu, hue⟩

theorem dbinv_complete_assignment (cid uname : String) (s : DB) (h : DBInv s) :
    DBInv ((complete_assignment cid uname s).2) := by
  obtain ⟨h1, h2, h3, h4⟩ := h
  unfold complete_assignment
  split
  next heq => exact ⟨h1, h2, h3, h4⟩
  next student hstu =>
    split
    next e heq => exact ⟨h1, h2, h3, h4⟩
    next oid hv =>
      split
      next hpair => exact ⟨h1, h2, h3, h4⟩
      next prog hpair =>
        refine ⟨h1, ?_, h3, ?_⟩
        · unfold progressPairsUnique at h2 ⊢
          rw [map_updateFirst]
          · exact h2
          · intro x; rfl
        · intro p hpm
          rcases mem_updateFirst hpm with hpm | ⟨y, hy, rfl⟩
          · exact h4 p hpm
          · obtain ⟨u, hu, hue⟩ := h4 y hy
            exact ⟨u, hu, hue⟩

/-! ### Concrete fixtures used by witnesses -/

/-- A concrete student account. -/
def aliceU : UserDoc := ⟨0, "alice", false⟩

/-- A concrete instructor account. -/
def bobU : UserDoc := ⟨1, "bob", true⟩

/-- A store holding one student and one instructor. -/
def dbA : DB := ⟨[aliceU, bobU], [], [], 2⟩

/-- A valid ObjectId string; `parseOid cidA = 1`. -/
def cidA : String := "000000000000000000000001"

/-- A progress record of alice for the course with ObjectId 1. -/
def progA : ProgressDoc := ⟨2, 0, 1, [], false⟩

/-- `dbA` with alice enrolled in course 1. -/
def dbB : DB := ⟨[aliceU, bobU], [], [progA], 3⟩

/-! ### The claims -/

/-- Claim C3: user registration fails exactly when the username is taken —
if a user with the requested username exists, `create_user` returns a 400
error and the store is unchanged; otherwise it appends exactly one user
with that username and the requested `is_instructor` flag and returns it. -/
theorem create_user_username_taken (req : UserCreateRequest) (s : DB) :
    ((∃ u ∈ s.users, u.username = req.username) →
      create_user req s = (.error (.httpException 400 "Username already exists"), s)) ∧
    ((∀ u ∈ s.users, u.username ≠ req.username) →
      create_user req s =
        (.ok ⟨s.nextId, req.username, req.is_instructor⟩,
          { s with users := s.users ++ [⟨s.nextId, req.username, req.is_instructor⟩], nextId := s.nextId + 1 })) := by
  constructor
  · rintro ⟨u, hu, hue⟩
    have hsome : (find_one s.users (fun u => u.username == req.username)).isSome := by
      rw [find_one]
      exact List.find?_isSome.mpr ⟨u, hu, by simp [hue]⟩
    obtain ⟨u', hu'⟩ := Option.isSome_iff_exists.mp hsome
    simp only [create_user, hu']
  · intro hall
    have hnone : find_one s.users (fun u => u.username == req.username) = none := by
      rw [find_one]
      exact List.find?_eq_none.mpr (fun u hu => by simp [hall u hu])
    simp only [create_user, hnone]

/-- Witness for C3, both branches: registering "alice" again in `dbA` is
rejected and leaves the store unchanged; registering "carol" appends her. -/
theorem create_user_username_taken_witness :
    create_user ⟨"alice", true⟩ dbA =
      (.error (.httpException 400 "Username already exists"), dbA) ∧
    create_user ⟨"carol", false⟩ dbA =
      (.ok ⟨2, "carol", false⟩, ⟨[aliceU, bobU, ⟨2, "carol", false⟩], [], [], 3⟩) :=
  ⟨(create_user_username_taken ⟨"alice", true⟩ dbA).1 ⟨aliceU, by decide, by decide⟩,
   (create_user_username_taken ⟨"carol", false⟩ dbA).2 (by decide)⟩

/-- Claim C4: course creation is instructor-only — if `instructor_username`
does not resolve to an account with `is_instructor = true` (every user with
that username, if any, is a non-instructor), `create_course` replies 403
and the store is unchanged; otherwise it appends one course with the given
title and description, the resolved instructor's id as owner, and an empty
quiz sequence. -/
theorem create_course_instructor_only (req : CourseCreateRequest) (s : DB) :
    ((∀ u ∈ s.users, u.username = req.instructor_username → u.is_instructor = false) →
      create_course req s = (.error (.httpException 403 "Only instructors can create courses"), s)) ∧
    (∀ instr, find_one s.users (fun u => u.username == req.instructor_username && u.is_instructor == true) = some instr →
      instr.is_instructor = true ∧
      create_course req s =
        (.ok ⟨s.nextId, req.title, req.description, instr.id, []⟩,
          { s with courses := s.courses ++ [⟨s.nextId, req.title, req.description, instr.id, []⟩], nextId := s.nextId + 1 })) := by
  constructor
  · intro hall
    have hnone : find_one s.users
        (fun u => u.username == req.instructor_username && u.is_instructor == true) = none := by
      rw [find_one]
      refine List.find?_eq_none.mpr (fun u hu => ?_)
      simp only [Bool.and_eq_true, beq_iff_eq, not_and]
      intro hname
      simp [hall u hu hname]
    simp only [create_course, hnone]
  · intro instr hinstr
    have hp := List.find?_some hinstr
    simp only [Bool.and_eq_true, beq_iff_eq] at hp
    exact ⟨hp.2, by simp only [create_course, hinstr]⟩

/-- Witness for C4, both branches: the student "alice" cannot create a
course in `dbA`; the instructor "bob" can, and owns the created course. -/
theorem create_course_instructor_only_witness :
    create_course ⟨"T", none, "alice"⟩ dbA =
      (.error (.httpException 403 "Only instructors can create courses"), dbA) ∧
    ((⟨1, "bob", true⟩ : UserDoc).is_instructor = true ∧
      create_course ⟨"T", none, "bob"⟩ dbA =
        (.ok ⟨2, "T", none, 1, []⟩, ⟨[aliceU, bobU], [⟨2, "T", none, 1, []⟩], [], 3⟩)) :=
  ⟨(create_course_instructor_only ⟨"T", none, "alice"⟩ dbA).1 (by decide),
   (create_course_instructor_only ⟨"T", none, "bob"⟩ dbA).2 ⟨1, "bob", true⟩ (by decide)⟩

/-- Claim C5: every state reachable from the empty store by any sequence
of the eight operations satisfies the four data-model invariants: unique
usernames, at most one Progress per (student, course) pair, every course
owned by an instructor account, every Progress held by a non-instructor
account. -/
theorem reachable_states_satisfy_invariants (s : DB) (h : Reachable s) :
    DBInv s := by
  induction h with
  | init => exact dbinv_init
  | step o hr ih =>
    cases o with
    | opCreateUser req => exact dbinv_create_user req _ ih
    | opCreateCourse req => exact dbinv_create_course req _ ih
    | opAddQuiz cid q => exact dbinv_add_quiz cid q _ ih
    | opListCourses => exact ih
    | opEnroll cid req => exact dbinv_enroll cid req _ ih
    | opGetProgress cid uname => exact dbinv_get_progress cid uname _ ih
    | opCompleteQuiz cid uname req => exact dbinv_complete_quiz cid uname req _ ih
    | opCompleteAssignment cid uname => exact dbinv_complete_assignment cid uname _ ih

/-- Witness for C5: the state reached by registering a student and an
instructor, creating a course, and enrolling the student satisfies the
invariants. -/
theorem reachable_states_satisfy_invariants_witness :
    DBInv (applyOp (.opEnroll cidA ⟨"alice"⟩)
      (applyOp (.opCreateCourse ⟨"T", none, "bob"⟩)
        (applyOp (.opCreateUser ⟨"bob", true⟩)
          (applyOp (.opCreateUser ⟨"alice", false⟩) initDB)))) :=
  reachable_states_satisfy_invariants _
    (Reachable.step _ (Reachable.step _ (Reachable.step _ (Reachable.step _ Reachable.init))))

/-- Claim C1: enrollment is idempotent.  Given a username resolving to a
non-instructor account and a valid course id: if a Progress record for the
(student, course) pair exists, `enroll_student` returns exactly that record
and leaves the store unchanged; if none exists, it creates one with an
empty completed-quizzes set and `assignments_completed = false`, and a
second identical enrollment returns the same record and changes nothing. -/
theorem enroll_student_idempotent (s : DB) (cid : String) (req : EnrollRequest)
    (student : UserDoc)
    (hstu : find_one s.users
      (fun u => u.username == req.student_username && u.is_instructor == false) = some student)
    (hval : ObjectId_is_valid cid = true) :
    (∀ p, find_one s.progress
        (fun p => p.student_id == student.id && p.course_id == parseOid cid) = some p →
      enroll_student cid req s = (.ok p, s)) ∧
    (find_one s.progress
        (fun p => p.student_id == student.id && p.course_id == parseOid cid) = none →
      ∃ newp : ProgressDoc,
        newp.completed_quizzes = [] ∧ newp.assignments_completed = false ∧
        enroll_student cid req s =
          (.ok newp, { s with progress := s.progress ++ [newp], nextId := s.nextId + 1 }) ∧
        enroll_student cid req { s with progress := s.progress ++ [newp], nextId := s.nextId + 1 } =
          (.ok newp, { s with progress := s.progress ++ [newp], nextId := s.nextId + 1 })) := by
  constructor
  · intro p hp
    simp only [enroll_student, hstu, PyObjectId.validate, hval, if_true, hp]
  · intro hnone
    refine ⟨⟨s.nextId, student.id, parseOid cid, [], false⟩, rfl, rfl, ?_, ?_⟩
    · simp only [enroll_student, hstu, PyObjectId.validate, hval, if_true, hnone]
    · have hfind2 : find_one (s.progress ++ [⟨s.nextId, student.id, parseOid cid, [], false⟩])
          (fun p => p.student_id == student.id && p.course_id == parseOid cid) =
          some ⟨s.nextId, student.id, parseOid cid, [], false⟩ := by
        rw [find_one]
        refine find?_append_cons _ _ _ _ ?_ (by simp)
        intro y hy
        have hy' := List.find?_eq_none.mp hnone y hy
        simpa using hy'
      simp only [enroll_student, hstu, PyObjectId.validate, hval, if_true, hfind2]

/-- Witness for C1: in `dbB` alice is already enrolled in course 1 and
re-enrollment returns `progA` unchanged; in `dbA` she is not enrolled and
enrollment creates an empty progress record, idempotently. -/
theorem enroll_student_idempotent_witness :
    enroll_student cidA ⟨"alice"⟩ dbB = (.ok progA, dbB) ∧
    (∃ newp : ProgressDoc,
      newp.completed_quizzes = [] ∧ newp.assignments_completed = false ∧
      enroll_student cidA ⟨"alice"⟩ dbA =
        (.ok newp, { dbA with progress := dbA.progress ++ [newp], nextId := dbA.nextId + 1 }) ∧
      enroll_student cidA ⟨"alice"⟩ { dbA with progress := dbA.progress ++ [newp], nextId := dbA.nextId + 1 } =
        (.ok newp, { dbA with progress := dbA.progress ++ [newp], nextId := dbA.nextId + 1 })) :=
  ⟨(enroll_student_idempotent dbB cidA ⟨"alice"⟩ aliceU (by decide) (by decide)).1 progA (by decide),
   (enroll_student_idempotent dbA cidA ⟨"alice"⟩ aliceU (by decide) (by decide)).2 (by decide)⟩

/-- A concrete quiz question. -/
def qA : QuizQuestion := ⟨"q1", ["a", "b"], 0⟩

/-- A concrete course with ObjectId 1 owned by bob. -/
def courseA : CourseDoc := ⟨1, "T", none, 1, []⟩

/-- `dbA` plus `courseA`. -/
def dbC : DB := ⟨[aliceU, bobU], [courseA], [], 3⟩

/-- Claim C6: appending a quiz question.  For a valid course id: if no
course with that id exists, `add_quiz` replies 404 and changes nothing; if
one exists, the course's quiz sequence afterwards is the old sequence with
the question appended, its other fields and all other courses unchanged. -/
theorem add_quiz_appends (s : DB) (cid : String) (q : QuizQuestion)
    (hval : ObjectId_is_valid cid = true) :
    (find_one s.courses (fun c => c.id == parseOid cid) = none →
      add_quiz cid q s = (.error (.httpException 404 "Course not found"), s)) ∧
    (∀ c, find_one s.courses (fun x => x.id == parseOid cid) = some c →
      ∃ l1 l2, s.courses = l1 ++ c :: l2 ∧
        add_quiz cid q s =
          (.ok { c with quizzes := c.quizzes ++ [q] },
            { s with courses := l1 ++ { c with quizzes := c.quizzes ++ [q] } :: l2 })) := by
  constructor
  · intro hnone
    simp only [add_quiz, PyObjectId.validate, hval, if_true, hnone]
  · intro c hc
    obtain ⟨l1, l2, hsplit, hl1⟩ := find?_split hc
    refine ⟨l1, l2, hsplit, ?_⟩
    have hpc : (c.id == parseOid cid) = true :=
      List.find?_some (p := fun x : CourseDoc => x.id == parseOid cid) hc
    have hupd : updateFirst (fun x => x.id == parseOid cid)
        (fun x => { x with quizzes := x.quizzes ++ [q] }) s.courses =
        l1 ++ { c with quizzes := c.quizzes ++ [q] } :: l2 := by
      rw [hsplit]
      exact updateFirst_append _ _ _ _ _ hl1 hpc
    have hfind2 : find_one (l1 ++ { c with quizzes := c.quizzes ++ [q] } :: l2)
        (fun x => x.id == parseOid cid) = some { c with quizzes := c.quizzes ++ [q] } := by
      rw [find_one]
      exact find?_append_cons _ _ _ _ hl1 hpc
    simp only [add_quiz, PyObjectId.validate, hval, if_true, hc, hupd, hfind2]

/-- Witness for C6, both branches: in `dbA` (no courses) `add_quiz` replies
404; in `dbC` it appends `qA` to `courseA`. -/
theorem add_quiz_appends_witness :
    add_quiz cidA qA dbA = (.error (.httpException 404 "Course not found"), dbA) ∧
    (∃ l1 l2, dbC.courses = l1 ++ courseA :: l2 ∧
      add_quiz cidA qA dbC =
        (.ok { courseA with quizzes := courseA.quizzes ++ [qA] },
          { dbC with courses := l1 ++ { courseA with quizzes := courseA.quizzes ++ [qA] } :: l2 })) :=
  ⟨(add_quiz_appends dbA cidA qA (by decide)).1 (by decide),
   (add_quiz_appends dbC cidA qA (by decide)).2 courseA (by decide)⟩

/-- Full characterization of one `complete_quiz` run on a store whose
progress ids are distinct: locating the record found for the
(student, course) pair, the handler either leaves the store unchanged
(index already present) or rewrites exactly that record, appending the
index to its completed list. -/
theorem complete_quiz_run (s : DB) (cid uname : String) (req : CompleteQuizRequest)
    (student : UserDoc) (prog : ProgressDoc)
    (hstu : find_one s.users
      (fun u => u.username == uname && u.is_instructor == false) = some student)
    (hval : ObjectId_is_valid cid = true)
    (hfind : find_one s.progress
      (fun p => p.student_id == student.id && p.course_id == parseOid cid) = some prog)
    (hnd : (s.progress.map ProgressDoc.id).Nodup) :
    (prog.completed_quizzes.contains req.quiz_index = true →
      complete_quiz cid uname req s = (.ok "Quiz marked complete", s)) ∧
    (prog.completed_quizzes.contains req.quiz_index = false →
      ∃ l1 l2, s.progress = l1 ++ prog :: l2 ∧
        (∀ y ∈ l1, (y.student_id == student.id && y.course_id == parseOid cid) = false) ∧
        complete_quiz cid uname req s =
          (.ok "Quiz marked complete",
            { s with progress := l1 ++ { prog with completed_quizzes := prog.completed_quizzes ++ [req.quiz_index] } :: l2 })) := by
  constructor
  · intro hc
    simp only [complete_quiz, hstu, PyObjectId.validate, hval, if_true, hfind, hc]
  · intro hc
    obtain ⟨l1, l2, hsplit, hl1⟩ := find?_split hfind
    refine ⟨l1, l2, hsplit, hl1, ?_⟩
    have hid : ∀ y ∈ l1, (y.id == prog.id) = false := by
      rw [hsplit] at hnd
      exact key_beq_false_of_nodup ProgressDoc.id l1 l2 prog hnd
    have hupd : updateFirst (fun p => p.id == prog.id)
        (fun p => { p with completed_quizzes := prog.completed_quizzes ++ [req.quiz_index] }) s.progress =
        l1 ++ { prog with completed_quizzes := prog.completed_quizzes ++ [req.quiz_index] } :: l2 := by
      rw [hsplit]
      exact updateFirst_append _ _ _ _ _ hid (by simp)
    simp only [complete_quiz, hstu, PyObjectId.validate, hval, if_true, hfind, hc,
      Bool.false_eq_true, if_false, hupd]

/-- Full characterization of one `complete_assignment` run on a store
whose progress ids are distinct: it rewrites exactly the record found for
the (student, course) pair, setting the assignment flag. -/
theorem complete_assignment_run (s : DB) (cid uname : String)
    (student : UserDoc) (prog : ProgressDoc)
    (hstu : find_one s.users
      (fun u => u.username == uname && u.is_instructor == false) = some student)
    (hval : ObjectId_is_valid cid = true)
    (hfind : find_one s.progress
      (fun p => p.student_id == student.id && p.course_id == parseOid cid) = some prog)
    (hnd : (s.progress.map ProgressDoc.id).Nodup) :
    ∃ l1 l2, s.progress = l1 ++ prog :: l2 ∧
      (∀ y ∈ l1, (y.student_id == student.id && y.course_id == parseOid cid) = false) ∧
      complete_assignment cid uname s =
        (.ok "Assignment marked complete",
          { s with progress := l1 ++ { prog with assignments_completed := true } :: l2 }) := by
  obtain ⟨l1, l2, hsplit, hl1⟩ := find?_split hfind
  refine ⟨l1, l2, hsplit, hl1, ?_⟩
  have hid : ∀ y ∈ l1, (y.id == prog.id) = false := by
    rw [hsplit] at hnd
    exact key_beq_false_of_nodup ProgressDoc.id l1 l2 prog hnd
  have hupd : updateFirst (fun p => p.id == prog.id)
      (fun p => { p with assignments_completed := true }) s.progress =
      l1 ++ { prog with assignments_completed := true } :: l2 := by
    rw [hsplit]
    exact updateFirst_append _ _ _ _ _ hid (by simp)
  simp only [complete_assignment, hstu, PyObjectId.validate, hval, if_true, hfind, hupd]

/-- Claim C2: marking a quiz complete is an idempotent add.  For an
existing Progress record (store with distinct progress ids), after
`complete_quiz` the record found for the (student, course) pair has, as a
set, the old completed set united with the index, and running the same
request a second time leaves the store exactly as after the first run. -/
theorem complete_quiz_idempotent_add (s : DB) (cid uname : String)
    (req : CompleteQuizRequest) (student : UserDoc) (prog : ProgressDoc)
    (hstu : find_one s.users
      (fun u => u.username == uname && u.is_instructor == false) = some student)
    (hval : ObjectId_is_valid cid = true)
    (hfind : find_one s.progress
      (fun p => p.student_id == student.id && p.course_id == parseOid cid) = some prog)
    (hnd : (s.progress.map ProgressDoc.id).Nodup) :
    ∃ prog' : ProgressDoc,
      find_one ((complete_quiz cid uname req s).2).progress
          (fun p => p.student_id == student.id && p.course_id == parseOid cid) = some prog' ∧
      (∀ j : Int, j ∈ prog'.completed_quizzes ↔
        (j ∈ prog.completed_quizzes ∨ j = req.quiz_index)) ∧
      (complete_quiz cid uname req ((complete_quiz cid uname req s).2)).2 =
        (complete_quiz cid uname req s).2 := by
  by_cases hc : prog.completed_quizzes.contains req.quiz_index
  · have h1 := (complete_quiz_run s cid uname req student prog hstu hval hfind hnd).1 hc
    have hs2 : (complete_quiz cid uname req s).2 = s := by rw [h1]
    have hmem : req.quiz_index ∈ prog.completed_quizzes := by simpa using hc
    refine ⟨prog, ?_, ?_, ?_⟩
    · rw [hs2]; exact hfind
    · intro j
      constructor
      · exact fun hj => Or.inl hj
      · rintro (hj | rfl)
        · exact hj
        · exact hmem
    · rw [hs2, h1]
  · have hc' : prog.completed_quizzes.contains req.quiz_index = false := by
      simpa using hc
    obtain ⟨l1, l2, hsplit, hl1, hrun⟩ :=
      (complete_quiz_run s cid uname req student prog hstu hval hfind hnd).2 hc'
    have hs2 : (complete_quiz cid uname req s).2 =
        { s with progress := l1 ++ { prog with completed_quizzes := prog.completed_quizzes ++ [req.quiz_index] } :: l2 } := by
      rw [hrun]
    have hpp : (prog.student_id == student.id && prog.course_id == parseOid cid) = true :=
      List.find?_some
        (p := fun p : ProgressDoc => p.student_id == student.id && p.course_id == parseOid cid) hfind
    have hfind' : find_one
        (l1 ++ { prog with completed_quizzes := prog.completed_quizzes ++ [req.quiz_index] } :: l2)
        (fun p => p.student_id == student.id && p.course_id == parseOid cid) =
        some { prog with completed_quizzes := prog.completed_quizzes ++ [req.quiz_index] } := by
      rw [find_one]
      exact find?_append_cons _ _ _ _ hl1 hpp
    have hnd' : ((l1 ++ { prog with completed_quizzes := prog.completed_quizzes ++ [req.quiz_index] } :: l2).map
        ProgressDoc.id).Nodup := by
      rw [hsplit] at hnd
      simpa using hnd
    have hc2 : ({ prog with completed_quizzes := prog.completed_quizzes ++ [req.quiz_index] } : ProgressDoc).completed_quizzes.contains
        req.quiz_index = true := by simp
    have h2 := (complete_quiz_run
        { s with progress := l1 ++ { prog with completed_quizzes := prog.completed_quizzes ++ [req.quiz_index] } :: l2 }
        cid uname req student
        { prog with completed_quizzes := prog.completed_quizzes ++ [req.quiz_index] }
        hstu hval hfind' hnd').1 hc2
    refine ⟨{ prog with completed_quizzes := prog.completed_quizzes ++ [req.quiz_index] }, ?_, ?_, ?_⟩
    · rw [hs2]; exact hfind'
    · intro j
      simp
    · rw [hs2, h2]

/-- Witness for C2: completing quiz 5 for alice in `dbB` yields the set
\x7b5\x7d and doing it twice gives the same store as doing it once. -/
theorem complete_quiz_idempotent_add_witness :
    ∃ prog' : ProgressDoc,
      find_one ((complete_quiz cidA "alice" ⟨5⟩ dbB).2).progress
          (fun p => p.student_id == aliceU.id && p.course_id == parseOid cidA) = some prog' ∧
      (∀ j : Int, j ∈ prog'.completed_quizzes ↔
        (j ∈ progA.completed_quizzes ∨ j = (⟨5⟩ : CompleteQuizRequest).quiz_index)) ∧
      (complete_quiz cidA "alice" ⟨5⟩ ((complete_quiz cidA "alice" ⟨5⟩ dbB).2)).2 =
        (complete_quiz cidA "alice" ⟨5⟩ dbB).2 :=
  complete_quiz_idempotent_add dbB cidA "alice" ⟨5⟩ aliceU progA
    (by decide) (by decide) (by decide) (by decide)

/-- Claim C7: marking the assignment complete is an idempotent flag set
with no other effect.  On a store with distinct progress ids,
`complete_assignment` rewrites exactly the found record, setting
`assignments_completed := true` and keeping its other fields; users,
courses, the id counter and all other progress records are untouched, and
running it twice gives the same store as running it once. -/
theorem complete_assignment_idempotent_flag (s : DB) (cid uname : String)
    (student : UserDoc) (prog : ProgressDoc)
    (hstu : find_one s.users
      (fun u => u.username == uname && u.is_instructor == false) = some student)
    (hval : ObjectId_is_valid cid = true)
    (hfind : find_one s.progress
      (fun p => p.student_id == student.id && p.course_id == parseOid cid) = some prog)
    (hnd : (s.progress.map ProgressDoc.id).Nodup) :
    ∃ l1 l2, s.progress = l1 ++ prog :: l2 ∧
      complete_assignment cid uname s =
        (.ok "Assignment marked complete",
          { s with progress := l1 ++ { prog with assignments_completed := true } :: l2 }) ∧
      (complete_assignment cid uname ((complete_assignment cid uname s).2)).2 =
        (complete_assignment cid uname s).2 := by
  obtain ⟨l1, l2, hsplit, hl1, hrun⟩ :=
    complete_assignment_run s cid uname student prog hstu hval hfind hnd
  refine ⟨l1, l2, hsplit, hrun, ?_⟩
  have hs2 : (complete_assignment cid uname s).2 =
      { s with progress := l1 ++ { prog with assignments_completed := true } :: l2 } := by
    rw [hrun]
  have hpp : (prog.student_id == student.id && prog.course_id == parseOid cid) = true :=
    List.find?_some
      (p := fun p : ProgressDoc => p.student_id == student.id && p.course_id == parseOid cid) hfind
  have hfind' : find_one (l1 ++ { prog with assignments_completed := true } :: l2)
      (fun p => p.student_id == student.id && p.course_id == parseOid cid) =
      some { prog with assignments_completed := true } := by
    rw [find_one]
    exact find?_append_cons _ _ _ _ hl1 hpp
  have hnd' : ((l1 ++ { prog with assignments_completed := true } :: l2).map ProgressDoc.id).Nodup := by
    rw [hsplit] at hnd
    simpa using hnd
  obtain ⟨l1', l2', hsplit', hl1', hrun'⟩ :=
    complete_assignment_run
      { s with progress := l1 ++ { prog with assignments_completed := true } :: l2 }
      cid uname student { prog with assignments_completed := true } hstu hval hfind' hnd'
  rw [hs2, hrun']
  have hX : ({ { prog with assignments_completed := true } with assignments_completed := true } : ProgressDoc) =
      { prog with assignments_completed := true } := rfl
  rw [hX, ← hsplit']

/-- Witness for C7: completing alice's assignment in `dbB` sets the flag on
`progA` and doing it twice gives the same store as doing it once. -/
theorem complete_assignment_idempotent_flag_witness :
    ∃ l1 l2, dbB.progress = l1 ++ progA :: l2 ∧
      complete_assignment cidA "alice" dbB =
        (.ok "Assignment marked complete",
          { dbB with progress := l1 ++ { progA with assignments_completed := true } :: l2 }) ∧
      (complete_assignment cidA "alice" ((complete_assignment cidA "alice" dbB).2)).2 =
        (complete_assignment cidA "alice" dbB).2 :=
  complete_assignment_idempotent_flag dbB cidA "alice" aliceU progA
    (by decide) (by decide) (by decide) (by decide)

/-- Claim C10: `complete_quiz` performs no bounds check on the quiz index.
For an existing Progress record and every integer index — negative or
past the course's question count alike, since the statement quantifies
over all of `Int` — the operation succeeds and the found record afterwards
contains that index. -/
theorem complete_quiz_no_bounds_check (s : DB) (cid uname : String)
    (req : CompleteQuizRequest) (student : UserDoc) (prog : ProgressDoc)
    (hstu : find_one s.users
      (fun u => u.username == uname && u.is_instructor == false) = some student)
    (hval : ObjectId_is_valid cid = true)
    (hfind : find_one s.progress
      (fun p => p.student_id == student.id && p.course_id == parseOid cid) = some prog)
    (hnd : (s.progress.map ProgressDoc.id).Nodup) :
    (complete_quiz cid uname req s).1 = .ok "Quiz marked complete" ∧
    ∃ prog' : ProgressDoc,
      find_one ((complete_quiz cid uname req s).2).progress
          (fun p => p.student_id == student.id && p.course_id == parseOid cid) = some prog' ∧
      req.quiz_index ∈ prog'.completed_quizzes := by
  by_cases hc : prog.completed_quizzes.contains req.quiz_index
  · have h1 := (complete_quiz_run s cid uname req student prog hstu hval hfind hnd).1 hc
    have hs2 : (complete_quiz cid uname req s).2 = s := by rw [h1]
    refine ⟨by rw [h1], prog, ?_, by simpa using hc⟩
    rw [hs2]; exact hfind
  · have hc' : prog.completed_quizzes.contains req.quiz_index = false := by
      simpa using hc
    obtain ⟨l1, l2, hsplit, hl1, hrun⟩ :=
      (complete_quiz_run s cid uname req student prog hstu hval hfind hnd).2 hc'
    have hs2 : (complete_quiz cid uname req s).2 =
        { s with progress := l1 ++ { prog with completed_quizzes := prog.completed_quizzes ++ [req.quiz_index] } :: l2 } := by
      rw [hrun]
    have hpp : (prog.student_id == student.id && prog.course_id == parseOid cid) = true :=
      List.find?_some
        (p := fun p : ProgressDoc => p.student_id == student.id && p.course_id == parseOid cid) hfind
    have hfind' : find_one
        (l1 ++ { prog with completed_quizzes := prog.completed_quizzes ++ [req.quiz_index] } :: l2)
        (fun p => p.student_id == student.id && p.course_id == parseOid cid) =
        some { prog with completed_quizzes := prog.completed_quizzes ++ [req.quiz_index] } := by
      rw [find_one]
      exact find?_append_cons _ _ _ _ hl1 hpp
    refine ⟨by rw [hrun], { prog with completed_quizzes := prog.completed_quizzes ++ [req.quiz_index] }, ?_, by simp⟩
    rw [hs2]; exact hfind'

/-- Witness for C10: the negative index -7 is accepted and recorded for
alice in `dbB`. -/
theorem complete_quiz_no_bounds_check_witness :
    (complete_quiz cidA "alice" ⟨-7⟩ dbB).1 = .ok "Quiz marked complete" ∧
    ∃ prog' : ProgressDoc,
      find_one ((complete_quiz cidA "alice" ⟨-7⟩ dbB).2).progress
          (fun p => p.student_id == aliceU.id && p.course_id == parseOid cidA) = some prog' ∧
      (⟨-7⟩ : CompleteQuizRequest).quiz_index ∈ prog'.completed_quizzes :=
  complete_quiz_no_bounds_check dbB cidA "alice" ⟨-7⟩ aliceU progA
    (by decide) (by decide) (by decide) (by decide)

/-- Claim C9: enrollment does not require the course to exist.  For a
valid course id matching no course, a username resolving to a
non-instructor account, and no prior enrollment, `enroll_student`
succeeds and creates a Progress record whose course id matches no
existing course. -/
theorem enroll_without_course (s : DB) (cid : String) (req : EnrollRequest)
    (student : UserDoc)
    (hstu : find_one s.users
      (fun u => u.username == req.student_username && u.is_instructor == false) = some student)
    (hval : ObjectId_is_valid cid = true)
    (hnocourse : ∀ c ∈ s.courses, c.id ≠ parseOid cid)
    (hnone : find_one s.progress
      (fun p => p.student_id == student.id && p.course_id == parseOid cid) = none) :
    ∃ newp : ProgressDoc,
      enroll_student cid req s =
        (.ok newp, { s with progress := s.progress ++ [newp], nextId := s.nextId + 1 }) ∧
      newp.course_id = parseOid cid ∧
      ∀ c ∈ s.courses, c.id ≠ newp.course_id := by
  refine ⟨⟨s.nextId, student.id, parseOid cid, [], false⟩, ?_, rfl, ?_⟩
  · simp only [enroll_student, hstu, PyObjectId.validate, hval, if_true, hnone]
  · intro c hc
    exact hnocourse c hc

/-- Witness for C9: `dbA` has no courses at all, yet enrolling alice in
course `cidA` succeeds and creates a dangling Progress record. -/
theorem enroll_without_course_witness :
    ∃ newp : ProgressDoc,
      enroll_student cidA ⟨"alice"⟩ dbA =
        (.ok newp, { dbA with progress := dbA.progress ++ [newp], nextId := dbA.nextId + 1 }) ∧
      newp.course_id = parseOid cidA ∧
      ∀ c ∈ dbA.courses, c.id ≠ newp.course_id :=
  enroll_without_course dbA cidA ⟨"alice"⟩ aliceU
    (by decide) (by decide) (by decide) (by decide)

/-! ### Error classification helpers (for claim C8) -/

theorem create_user_err (req : UserCreateRequest) (s : DB) (e : Failure)
    (he : (create_user req s).1 = .error e) : e.isHttp = true := by
  unfold create_user at he
  split at he
  · simp at he
    subst he
    rfl
  · simp at he

theorem create_course_err (req : CourseCreateRequest) (s : DB) (e : Failure)
    (he : (create_course req s).1 = .error e) : e.isHttp = true := by
  unfold create_course at he
  split at he
  · simp at he
    subst he
    rfl
  · simp at he

theorem list_courses_err (s : DB) (e : Failure)
    (he : (list_courses s).1 = .error e) : e.isHttp = true := by
  simp [list_courses] at he

theorem add_quiz_err (cid : String) (q : QuizQuestion) (s : DB) (e : Failure)
    (he : (add_quiz cid q s).1 = .error e) :
    e.isHttp = true ∨ (e = .valueError "Invalid ObjectId" ∧ ObjectId_is_valid cid = false) := by
  unfold add_quiz at he
  split at he
  next e' heq =>
    unfold PyObjectId.validate at heq
    split at heq
    · simp at heq
    next hv =>
      simp at heq he
      right
      refine ⟨?_, by simpa using hv⟩
      rw [← he, ← heq]
  next oid heq =>
    split at he
    · left
      simp at he
      subst he
      rfl
    next c0 heq2 =>
      dsimp only at he
      split at he
      next heq3 =>
        exfalso
        have h1 : (c0.id == oid) = true :=
          List.find?_some (p := fun c : CourseDoc => c.id == oid) heq2
        have hsome := find?_updateFirst_same (p := fun c : CourseDoc => c.id == oid)
          (f := fun c => { c with quizzes := c.quizzes ++ [q] }) heq2 h1
        rw [find_one] at heq3
        rw [hsome] at heq3
        simp at heq3
      next updated heq3 =>
        simp at he

theorem enroll_err (cid : String) (req : EnrollRequest) (s : DB) (e : Failure)
    (he : (enroll_student cid req s).1 = .error e) :
    e.isHttp = true ∨ (e = .valueError "Invalid ObjectId" ∧ ObjectId_is_valid cid = false) := by
  unfold enroll_student at he
  split at he
  · left
    simp at he
    subst he
    rfl
  next student hstu =>
    split at he
    next e' heq =>
      unfold PyObjectId.validate at heq
      split at heq
      · simp at heq
      next hv =>
        simp at heq he
        right
        refine ⟨?_, by simpa using hv⟩
        rw [← he, ← heq]
    next oid heq =>
      split at he
      · simp at he
      · dsimp only at he
        simp at he

theorem get_progress_err (cid uname : String) (s : DB) (e : Failure)
    (he : (get_progress cid uname s).1 = .error e) :
    e.isHttp = true ∨ (e = .valueError "Invalid ObjectId" ∧ ObjectId_is_valid cid = false) := by
  unfold get_progress at he
  split at he
  · left
    simp at he
    subst he
    rfl
  next student hstu =>
    split at he
    next e' heq =>
      unfold PyObjectId.validate at heq
      split at heq
      · simp at heq
      next hv =>
        simp at heq he
        right
        refine ⟨?_, by simpa using hv⟩
        rw [← he, ← heq]
    next oid heq =>
      split at he
      · left
        simp at he
        subst he
        rfl
      · simp at he

theorem complete_quiz_err (cid uname : String) (req : CompleteQuizRequest)
    (s : DB) (e : Failure)
    (he : (complete_quiz cid uname req s).1 = .error e) :
    e.isHttp = true ∨ (e = .valueError "Invalid ObjectId" ∧ ObjectId_is_valid cid = false) := by
  unfold complete_quiz at he
  split at he
  · left
    simp at he
    subst he
    rfl
  next student hstu =>
    split at he
    next e' heq =>
      unfold PyObjectId.validate at heq
      split at heq
      · simp at heq
      next hv =>
        simp at heq he
        right
        refine ⟨?_, by simpa using hv⟩
        rw [← he, ← heq]
    next oid heq =>
      split at he
      · left
        simp at he
        subst he
        rfl
      next prog heq2 =>
        split at he
        · simp at he
        · dsimp only at he
          simp at he

theorem complete_assignment_err (cid uname : String) (s : DB) (e : Failure)
    (he : (complete_assignment cid uname s).1 = .error e) :
    e.isHttp = true ∨ (e = .valueError "Invalid ObjectId" ∧ ObjectId_is_valid cid = false) := by
  unfold complete_assignment at he
  split at he
  · left
    simp at he
    subst he
    rfl
  next student hstu =>
    split at he
    next e' heq =>
      unfold PyObjectId.validate at heq
      split at heq
      · simp at heq
      next hv =>
        simp at heq he
        right
        refine ⟨?_, by simpa using hv⟩
        rw [← he, ← heq]
    next oid heq =>
      split at he
      · left
        simp at he
        subst he
        rfl
      next prog heq2 =>
        dsimp only at he
        simp at he

theorem add_quiz_invalid_oid (cid : String) (q : QuizQuestion) (s : DB)
    (hv : ObjectId_is_valid cid = false) :
    (add_quiz cid q s).1 = .error (.valueError "Invalid ObjectId") := by
  simp [add_quiz, PyObjectId.validate, hv]

theorem enroll_invalid_no_ok (cid : String) (req : EnrollRequest) (s : DB)
    (hv : ObjectId_is_valid cid = false) :
    ∀ r, (enroll_student cid req s).1 ≠ .ok r := by
  intro r he
  unfold enroll_student at he
  split at he
  · simp at he
  next student hstu =>
    simp [PyObjectId.validate, hv] at he

theorem get_progress_invalid_no_ok (cid uname : String) (s : DB)
    (hv : ObjectId_is_valid cid = false) :
    ∀ r, (get_progress cid uname s).1 ≠ .ok r := by
  intro r he
  unfold get_progress at he
  split at he
  · simp at he
  next student hstu =>
    simp [PyObjectId.validate, hv] at he

theorem complete_quiz_invalid_no_ok (cid uname : String)
    (req : CompleteQuizRequest) (s : DB)
    (hv : ObjectId_is_valid cid = false) :
    ∀ r, (complete_quiz cid uname req s).1 ≠ .ok r := by
  intro r he
  unfold complete_quiz at he
  split at he
  · simp at he
  next student hstu =>
    simp [PyObjectId.validate, hv] at he

theorem complete_assignment_invalid_no_ok (cid uname : String) (s : DB)
    (hv : ObjectId_is_valid cid = false) :
    ∀ r, (complete_assignment cid uname s).1 ≠ .ok r := by
  intro r he
  unfold complete_assignment at he
  split at he
  · simp at he
  next student hstu =>
    simp [PyObjectId.validate, hv] at he

/-- Counterexample to claim C8 as stated: the request
`POST /courses/nope/quizzes/` has a `course_id` that is not a valid
ObjectId string, yet `add_quiz` fails with a bare `ValueError`
(an exception escaping the handler), which is not an HTTP error response. -/
theorem add_quiz_nonhttp_failure_counterexample :
    (add_quiz "nope" qA initDB).1 = .error (.valueError "Invalid ObjectId") ∧
    Failure.isHttp (.valueError "Invalid ObjectId") = false := by
  constructor
  · rfl
  · rfl

/-- Claim C8 (amended): every failure of every operation is an
`HTTPException` carrying a status code and a message, except ObjectId
validation — a failure can be the bare `ValueError("Invalid ObjectId")`,
and only when the `course_id` path parameter is not a valid ObjectId
string; for such a `course_id` the operation still always fails (never
returns a result): `add_quiz` with that `ValueError`, and the
student-scoped operations with it or with the 404 student lookup error. -/
theorem failures_http_except_invalid_oid (s : DB) (cid uname : String)
    (q : QuizQuestion) (ereq : EnrollRequest) (cqr : CompleteQuizRequest)
    (ureq : UserCreateRequest) (creq : CourseCreateRequest) :
    (∀ e, (create_user ureq s).1 = .error e → e.isHttp = true) ∧
    (∀ e, (create_course creq s).1 = .error e → e.isHttp = true) ∧
    (∀ e, (list_courses s).1 = .error e → e.isHttp = true) ∧
    (∀ e, (add_quiz cid q s).1 = .error e →
      e.isHttp = true ∨ (e = .valueError "Invalid ObjectId" ∧ ObjectId_is_valid cid = false)) ∧
    (∀ e, (enroll_student cid ereq s).1 = .error e →
      e.isHttp = true ∨ (e = .valueError "Invalid ObjectId" ∧ ObjectId_is_valid cid = false)) ∧
    (∀ e, (get_progress cid uname s).1 = .error e →
      e.isHttp = true ∨ (e = .valueError "Invalid ObjectId" ∧ ObjectId_is_valid cid = false)) ∧
    (∀ e, (complete_quiz cid uname cqr s).1 = .error e →
      e.isHttp = true ∨ (e = .valueError "Invalid ObjectId" ∧ ObjectId_is_valid cid = false)) ∧
    (∀ e, (complete_assignment cid uname s).1 = .error e →
      e.isHttp = true ∨ (e = .valueError "Invalid ObjectId" ∧ ObjectId_is_valid cid = false)) ∧
    (ObjectId_is_valid cid = false →
      (add_quiz cid q s).1 = .error (.valueError "Invalid ObjectId") ∧
      (∀ r, (enroll_student cid ereq s).1 ≠ .ok r) ∧
      (∀ r, (get_progress cid uname s).1 ≠ .ok r) ∧
      (∀ r, (complete_quiz cid uname cqr s).1 ≠ .ok r) ∧
      (∀ r, (complete_assignment cid uname s).1 ≠ .ok r)) :=
  ⟨fun e => create_user_err ureq s e,
   fun e => create_course_err creq s e,
   fun e => list_courses_err s e,
   fun e => add_quiz_err cid q s e,
   fun e => enroll_err cid ereq s e,
   fun e => get_progress_err cid uname s e,
   fun e => complete_quiz_err cid uname cqr s e,
   fun e => complete_assignment_err cid uname s e,
   fun hv =>
     ⟨add_quiz_invalid_oid cid q s hv,
      enroll_invalid_no_ok cid ereq s hv,
      get_progress_invalid_no_ok cid uname s hv,
      complete_quiz_invalid_no_ok cid uname cqr s hv,
      complete_assignment_invalid_no_ok cid uname s hv⟩⟩

/-- Witness for C8 (amended): the 404 the unknown-course request draws in
`dbA` is an HTTP error, and the invalid ObjectId string "nope" makes
`add_quiz` fail with the bare `ValueError` and `enroll_student` fail
rather than return a record. -/
theorem failures_http_except_invalid_oid_witness :
    (Failure.isHttp (.httpException 404 "Course not found") = true ∨
      ((Failure.httpException 404 "Course not found") = .valueError "Invalid ObjectId" ∧
        ObjectId_is_valid cidA = false)) ∧
    (add_quiz "nope" qA dbA).1 = .error (.valueError "Invalid ObjectId") ∧
    (∀ r, (enroll_student "nope" ⟨"alice"⟩ dbA).1 ≠ .ok r) ∧
    (∀ r, (get_progress "nope" "alice" dbA).1 ≠ .ok r) ∧
    (∀ r, (complete_quiz "nope" "alice" ⟨0⟩ dbA).1 ≠ .ok r) ∧
    (∀ r, (complete_assignment "nope" "alice" dbA).1 ≠ .ok r) :=
  ⟨(failures_http_except_invalid_oid dbA cidA "alice" qA ⟨"alice"⟩ ⟨0⟩ ⟨"x", false⟩
      ⟨"T", none, "bob"⟩).2.2.2.1 (.httpException 404 "Course not found") (by rfl),
   (failures_http_except_invalid_oid dbA "nope" "alice" qA ⟨"alice"⟩ ⟨0⟩ ⟨"x", false⟩
      ⟨"T", none, "bob"⟩).2.2.2.2.2.2.2.2 (by decide)⟩
